import Mathlib

/-!
Shallow embedding of the simulation kernel of the Bangladesh supply-chain
simulator (sources under `src/`): the event queue
(`src/simulation_core/event_manager.py`), the tick loop of the engine
(`src/simulation_core/engine.py`), the network graph model
(`src/supply_chain_network/network_model.py` with `nodes.py` / `edges.py`)
and the disruption agent (`src/agents/disruption_agent.py`).

Conventions used throughout:
* Python `dict`s keyed by strings are modelled as insertion-ordered
  association lists `List (String × _)` with `List.lookup`;
* a Python callable that either returns normally or raises is modelled by
  recording, per call, whether it succeeds (`ok : Bool`) — the caller's
  `try/except` behaviour is then translated explicitly;
* simulation time (`env.now` of the simpy environment) is carried as a
  plain `Nat` field, advanced exactly where the engine calls
  `env.timeout(1)`.
-/

namespace SimKernel

/- ------------------------------------------------------------------
Event manager (`src/simulation_core/event_manager.py`)
------------------------------------------------------------------ -/

/-- `EventType` enum of `event_manager.py` (lines 9-15). -/
inductive EventType where
  | GENERAL
  | DISRUPTION_START
  | DISRUPTION_END
  | POLICY_CHANGE
  | AGENT_ACTION
deriving DecidableEq

/-- An `Event` (`event_manager.py` lines 17-49).  `step` is the scheduled
simulation step, `etype` the `EventType`, `triggered` the `self.triggered`
flag (initialised `False`).  The bound callable `action` with its
`args`/`kwargs` is abstracted to an identifier `eid` (two textually equal
schedules of distinct actions get distinct `eid`s) plus `ok`, which records
whether invoking the action returns normally (`ok = true`) or raises
(`ok = false`); `description` is log-only and omitted. -/
structure Event where
  step : Nat
  etype : EventType
  eid : Nat
  ok : Bool
  triggered : Bool
deriving DecidableEq

/-- `Event.trigger` (`event_manager.py` lines 30-40): if the event has not
yet triggered, the action is invoked; `triggered` becomes `true` only when
the action did not raise (line 36 runs after line 35 succeeded). -/
def Event.trigger (e : Event) : Event :=
  if !e.triggered then (if e.ok then { e with triggered := true } else e) else e

/-- Ordering used by `Event.__lt__` (lines 42-46): events compare by `step`
only.  `python_list.sort()` is a stable ascending sort under this `<`,
i.e. the stable sort by `step ≤ step`. -/
def stepLE (a b : Event) : Prop := a.step ≤ b.step

instance : DecidableRel stepLE := fun a b => Nat.decLe a.step b.step

instance : IsTotal Event stepLE := ⟨fun a b => Nat.le_total a.step b.step⟩

instance : IsTrans Event stepLE := ⟨fun _ _ _ h h2 => Nat.le_trans h h2⟩

/-- The effect of `self.event_queue.sort()` (`event_manager.py` line 73):
a stable ascending sort by `Event.step`.  Python's timsort and insertion
sort are both stable sorts by the same key, hence produce identical
output; Mathlib's `insertionSort` by `stepLE` is that stable sort. -/
def pySortEvents (l : List Event) : List Event :=
  List.insertionSort stepLE l

/-- State of an `EventManager` (`event_manager.py` lines 52-74): the simpy
environment's clock `env.now` and the `event_queue` list. -/
structure EMState where
  now : Nat
  queue : List Event
deriving DecidableEq

/-- A fresh `EventManager` over an environment whose clock reads `n`. -/
def initEM (n : Nat) : EMState := { now := n, queue := [] }

/-- Outcome of `schedule_event`: either the event was appended
(falling through to line 70) or the request was skipped with the
warning log of line 67 because `step < self.env.now`. -/
inductive SchedOutcome where
  | accepted
  | rejectedPast
deriving DecidableEq

/-- `EventManager.schedule_event` (`event_manager.py` lines 61-74): requests
for a step before `env.now` are skipped (warning logged, nothing inserted);
otherwise a fresh `Event` (with `triggered = False`) is appended and the
queue re-sorted (stably, by `step`). -/
def scheduleEvent (m : EMState) (step : Nat) (ty : EventType) (eid : Nat) (ok : Bool) :
    EMState × SchedOutcome :=
  if step < m.now then (m, .rejectedPast)
  else
    ({ m with queue := pySortEvents (m.queue ++ [⟨step, ty, eid, ok, false⟩]) }, .accepted)

/-- `EventManager.process_events` (`event_manager.py` lines 76-101): one
pass over the queue puts every event with `step == current_step ∧ ¬triggered`
into `events_to_trigger_now` and every other event into `remaining_events`
(a partition, i.e. the two order-preserving filters below); the queue is
replaced by the remainder, then `trigger()` is called on each due event in
order.  Every due event satisfies `triggered = false`, so each `trigger()`
invokes its action exactly once; the returned list is therefore the exact
record of action invocations, in invocation order (the source returns its
length as `triggered_count`). -/
def processEvents (m : EMState) (currentStep : Nat) : EMState × List Event :=
  let due := m.queue.filter (fun e => e.step == currentStep && !e.triggered)
  let remaining := m.queue.filter (fun e => !(e.step == currentStep && !e.triggered))
  ({ m with queue := remaining }, due)

/-- An observable interaction with the event manager, used to quantify over
"any subsequent activity": a `schedule_event` call, a `process_events`
call, or the engine advancing the simpy clock by one (`env.timeout(1)`). -/
inductive Op where
  | sched (step : Nat) (ty : EventType) (eid : Nat) (ok : Bool)
  | proc (tick : Nat)
  | advance
deriving DecidableEq

/-- Whether an operation is a `schedule_event` call for action id `eid`. -/
def opSchedulesEid : Op → Nat → Bool
  | .sched _ _ e _, eid => e == eid
  | .proc _, _ => false
  | .advance, _ => false

/-- Run a sequence of interactions against the event manager, accumulating
every event fired by the `process_events` calls, in firing order. -/
def runOps : EMState → List Op → EMState × List Event
  | m, [] => (m, [])
  | m, .sched s ty eid ok :: ops => runOps (scheduleEvent m s ty eid ok).1 ops
  | m, .proc t :: ops =>
      let p := processEvents m t
      let r := runOps p.1 ops
      (r.1, p.2 ++ r.2)
  | m, .advance :: ops => runOps { m with now := m.now + 1 } ops

/-- Run successive `process_events` calls at the given ticks, accumulating
the fired events. -/
def procRun : EMState → List Nat → EMState × List Event
  | m, [] => (m, [])
  | m, t :: ts =>
      let p := processEvents m t
      let r := procRun p.1 ts
      (r.1, p.2 ++ r.2)

/-- Number of events in a list whose action identifier is `eid`. -/
def eidCount (eid : Nat) (l : List Event) : Nat :=
  l.countP (fun e => e.eid == eid)

/-- A `schedule_event` request: the arguments of one call (action again
abstracted to `eid`/`ok`). -/
structure Req where
  step : Nat
  ty : EventType
  eid : Nat
  ok : Bool
deriving DecidableEq

/-- The `Event` object that `schedule_event` builds for a request
(`event_manager.py` line 70; `triggered` initialised to `False`). -/
def reqEvent (r : Req) : Event :=
  { step := r.step, etype := r.ty, eid := r.eid, ok := r.ok, triggered := false }

/-- Issue a sequence of `schedule_event` calls. -/
def runSched : EMState → List Req → EMState
  | m, [] => m
  | m, r :: rs => runSched (scheduleEvent m r.step r.ty r.eid r.ok).1 rs

/- ------------------------------------------------------------------
Supply-chain network (`src/supply_chain_network/network_model.py`,
`nodes.py`, `edges.py`)
------------------------------------------------------------------ -/

/-- Operational status of a node or edge.  `network_model.py` writes the
status as the string "DISRUPTED"; the spec's data model (§3) gives the
closed set OPERATIONAL | DISRUPTED. -/
inductive EntityStatus where
  | OPERATIONAL
  | DISRUPTED
deriving DecidableEq

/-- Disruption details dictionary (`disruption_details : Dict[str, Any]`),
modelled as a string-keyed association list. -/
abbrev Details := List (String × String)

/-- A node object as used by `network_model.py`: identity `id` plus `name`
(`nodes.py` `BaseNode`, lines 8-44).  `status` / `disruptionMeta` are the
operational-status fields of the spec's data model (§3), written through
`update_status`; `nodes.py` (lines 8-44) does not declare them — see
`NodeObj.update_status`.  `BaseNode`'s remaining fields (`type`,
`location`, `capacity`, `attributes`, `agent_id`) are read by no operation
modelled here and are omitted. -/
structure NodeObj where
  id : String
  name : String
  status : EntityStatus
  disruptionMeta : Option Details
deriving DecidableEq

/-- An edge object with the interface `network_model.py` actually uses:
`edge_obj.id`, `edge_obj.source_node.id` (here `sourceId`) and
`edge_obj.destination_node.id` (here `targetId`) at lines 48-61.  (The
`Edge` class of `edges.py` lines 7-44 predates this interface: it stores
`source_id` / `target_id` strings and no `id`.)  `attrs` carries named
numeric attributes such as `weight` (`none` models Python `None`);
`status` / `disruptionMeta` are the spec §3 status fields, as for nodes. -/
structure EdgeObj where
  id : String
  sourceId : String
  targetId : String
  attrs : List (String × Option Int)
  status : EntityStatus
  disruptionMeta : Option Details
deriving DecidableEq

/-- Modelled from the spec: `update_status` is called on nodes and edges by
`SupplyChainNetwork.apply_disruption_to_node` / `_to_edge`
(`network_model.py` lines 142 and 151) but is defined nowhere under `src/`
(`nodes.py` and `edges.py` declare no such method).  Spec §4.1: applying a
disruption "sets `status = DISRUPTED` and stores `details` as disruption
metadata on the target", overwriting on repetition; so `update_status`
stores the given status and metadata. -/
def NodeObj.update_status (n : NodeObj) (s : EntityStatus) (d : Option Details) : NodeObj :=
  { n with status := s, disruptionMeta := d }

/-- Modelled from the spec: edge counterpart of `NodeObj.update_status`
(called at `network_model.py` line 151, defined nowhere under `src/`). -/
def EdgeObj.update_status (e : EdgeObj) (s : EntityStatus) (d : Option Details) : EdgeObj :=
  { e with status := s, disruptionMeta := d }

/-- State of a `SupplyChainNetwork` (`network_model.py` lines 16-21):
the two id-keyed lookup dicts `nodes_dict` / `edges_dict` and the
`networkx.MultiDiGraph`, the latter reduced to its node-id set and its
keyed edge list `(u, v, key)` — exactly what `add_node` / `add_edge`
insert (lines 31 and 60). -/
structure SupplyChainNetwork where
  nodesDict : List (String × NodeObj)
  edgesDict : List (String × EdgeObj)
  graphNodes : List String
  graphEdges : List (String × String × String)
deriving DecidableEq

/-- A freshly constructed `SupplyChainNetwork`. -/
def emptyNetwork : SupplyChainNetwork :=
  { nodesDict := [], edgesDict := [], graphNodes := [], graphEdges := [] }

/-- Which branch an `add_node_object` / `add_edge_object` call took: the
success path, the duplicate-id skip (warning log, lines 26 / 51), or the
missing-endpoint skip (error log, line 55). -/
inductive AddOutcome where
  | ok
  | duplicateId
  | unknownEndpoint
deriving DecidableEq

/-- `SupplyChainNetwork.add_node_object` (`network_model.py` lines 23-32):
a node whose id is already a key of `nodes_dict` is skipped with a warning
before anything is touched; otherwise it is inserted into `nodes_dict` and
into the graph. -/
def add_node_object (net : SupplyChainNetwork) (n : NodeObj) :
    SupplyChainNetwork × AddOutcome :=
  if (net.nodesDict.lookup n.id).isSome then (net, .duplicateId)
  else
    ({ net with
        nodesDict := net.nodesDict ++ [(n.id, n)]
        graphNodes := net.graphNodes ++ [n.id] }, .ok)

/-- `SupplyChainNetwork.add_edge_object` (`network_model.py` lines 48-61):
first the duplicate-id check against `edges_dict`, then the endpoint check
against `nodes_dict`; only when both pass is the edge inserted into
`edges_dict` and into the graph (keyed by its id).  Both rejections happen
before any mutation. -/
def add_edge_object (net : SupplyChainNetwork) (e : EdgeObj) :
    SupplyChainNetwork × AddOutcome :=
  if (net.edgesDict.lookup e.id).isSome then (net, .duplicateId)
  else if (net.nodesDict.lookup e.sourceId).isNone || (net.nodesDict.lookup e.targetId).isNone then
    (net, .unknownEndpoint)
  else
    ({ net with
        edgesDict := net.edgesDict ++ [(e.id, e)]
        graphEdges := net.graphEdges ++ [(e.sourceId, e.targetId, e.id)] }, .ok)

/-- In-place mutation of the object stored under key `k` of an id-keyed
dict (Python mutates the looked-up object; the dict keeps mapping the id
to it). -/
def updateAssoc {α : Type} (k : String) (f : α → α) : List (String × α) → List (String × α)
  | [] => []
  | (k2, v) :: t => if k2 == k then (k2, f v) :: t else (k2, v) :: updateAssoc k f t

/-- `SupplyChainNetwork.apply_disruption_to_node` (`network_model.py`
lines 138-145): look the node up; if present, call
`update_status("DISRUPTED", disruption_details)` on it; otherwise only log
a warning. -/
def apply_disruption_to_node (net : SupplyChainNetwork) (nid : String) (d : Details) :
    SupplyChainNetwork :=
  if (net.nodesDict.lookup nid).isSome then
    { net with
        nodesDict := updateAssoc nid (fun n => n.update_status .DISRUPTED (some d)) net.nodesDict }
  else net

/-- `SupplyChainNetwork.apply_disruption_to_edge` (`network_model.py`
lines 147-154), the edge counterpart. -/
def apply_disruption_to_edge (net : SupplyChainNetwork) (eid : String) (d : Details) :
    SupplyChainNetwork :=
  if (net.edgesDict.lookup eid).isSome then
    { net with
        edgesDict := updateAssoc eid (fun e => e.update_status .DISRUPTED (some d)) net.edgesDict }
  else net

/-- Modelled from the spec: `clear_disruption` appears in spec §4.1
("reverts `status = OPERATIONAL` and drops metadata") but no function of
that name exists anywhere under `src/`.  Node version, mirroring the shape
of `apply_disruption_to_node`. -/
def clear_disruption_node (net : SupplyChainNetwork) (nid : String) : SupplyChainNetwork :=
  if (net.nodesDict.lookup nid).isSome then
    { net with
        nodesDict := updateAssoc nid (fun n => n.update_status .OPERATIONAL none) net.nodesDict }
  else net

/-- Modelled from the spec: edge version of `clear_disruption` (absent
from `src/`, spec §4.1). -/
def clear_disruption_edge (net : SupplyChainNetwork) (eid : String) : SupplyChainNetwork :=
  if (net.edgesDict.lookup eid).isSome then
    { net with
        edgesDict := updateAssoc eid (fun e => e.update_status .OPERATIONAL none) net.edgesDict }
  else net

/-- Status of the node stored under `nid`. -/
def nodeStatus (net : SupplyChainNetwork) (nid : String) : Option EntityStatus :=
  (net.nodesDict.lookup nid).map NodeObj.status

/-- Disruption metadata of the node stored under `nid`. -/
def nodeMeta (net : SupplyChainNetwork) (nid : String) : Option (Option Details) :=
  (net.nodesDict.lookup nid).map NodeObj.disruptionMeta

/-- Status of the edge stored under `eid`. -/
def edgeStatus (net : SupplyChainNetwork) (eid : String) : Option EntityStatus :=
  (net.edgesDict.lookup eid).map EdgeObj.status

/-- Disruption metadata of the edge stored under `eid`. -/
def edgeMeta (net : SupplyChainNetwork) (eid : String) : Option (Option Details) :=
  (net.edgesDict.lookup eid).map EdgeObj.disruptionMeta

/-- The weighted branch of `SupplyChainNetwork.find_path`
(`network_model.py` lines 93-135 with `weight_attribute` given).  After the
membership check of lines 99-101 the source calls
`nx.shortest_path(..., weight=lambda u, v, k: get_edge_weight(u, v, k, self.edges_dict))`.
With `source`, `target` and a weight all given, networkx dispatches to
`bidirectional_dijkstra`, which (a) returns `[source]` immediately when
`source == target`, and (b) otherwise searches from both endpoints,
evaluating the weight callable as `weight(u, v, d)` where `d` is the
edge-data mapping of the multigraph — never the edge key the lambda
expects.  `get_edge_weight` then evaluates `edge_obj_dict.get(key)` with
`key` bound to that (unhashable) dict, raising
`TypeError: unhashable type: 'dict'` on the first edge examined; if the
search runs out of fringe before examining any edge it raises
`NetworkXNoPath` instead.  Either exception lands in a handler of
lines 127-135 (the `TypeError` in the catch-all of line 133) and the
function returns `None`.  Hence, faithfully: a weighted query yields
`[source]` when both endpoints exist and coincide, and `None` in every
other case — the `weight_attribute` value and the edges are never
consulted successfully.  (See the C2 analysis; the unweighted branch of
line 122 is exercised by no claim and is not modelled.) -/
def find_path_weighted (net : SupplyChainNetwork) (s t : String)
    (weightAttribute : String) : Option (List String) :=
  if (net.nodesDict.lookup s).isNone || (net.nodesDict.lookup t).isNone then none
  else if s == t then some [s]
  else
    let _ := weightAttribute
    none

/- ------------------------------------------------------------------
Disruption agent (`src/agents/disruption_agent.py`)
------------------------------------------------------------------ -/

/-- Configuration of a `DisruptionAgent` (`disruption_agent.py`
lines 11-19): `start_step` (default `-1`, hence `Int`) and `duration`
(default 1 day).  `magnitude` and `target_scope` are read by no modelled
behaviour (the impact methods are placeholders) and are omitted. -/
structure DisruptionConfig where
  startStep : Int
  duration : Nat
deriving DecidableEq

/-- Mutable state of a `DisruptionAgent`: `self.active` and
`self.duration_remaining` (the latter first assigned on activation; its
pre-activation value is never read, initialised 0 here). -/
structure DAState where
  active : Bool
  durationRemaining : Nat
deriving DecidableEq

/-- State of the agent as constructed (`self.active = False`). -/
def initDA : DAState := { active := false, durationRemaining := 0 }

/-- The two placeholder impact callbacks of `disruption_agent.py`
(lines 43-57), recorded as emitted effects. -/
inductive Impact where
  | applyImpact
  | removeImpact
deriving DecidableEq

/-- `DisruptionAgent.step` (`disruption_agent.py` lines 21-41): an inactive
agent with `start_step >= 0` and `current_step >= start_step` activates,
sets `duration_remaining = duration` and fires `apply_impact`; an active
agent with `duration_remaining > 0` merely decrements the counter; an
active agent with `duration_remaining == 0` deactivates and fires
`remove_impact`.  Returns the new state and the effects fired this step. -/
def disruptionStep (cfg : DisruptionConfig) (s : DAState) (t : Nat) : DAState × List Impact :=
  if !s.active ∧ 0 ≤ cfg.startStep ∧ cfg.startStep ≤ (t : Int) then
    ({ active := true, durationRemaining := cfg.duration }, [.applyImpact])
  else if s.active then
    if s.durationRemaining > 0 then
      ({ s with durationRemaining := s.durationRemaining - 1 }, [])
    else
      ({ s with active := false }, [.removeImpact])
  else (s, [])

/-- Drive the agent through the listed steps (the engine calls
`agent.step(current_step)` once per tick), pairing each fired effect with
the step at which it fired. -/
def runDA (cfg : DisruptionConfig) : DAState → List Nat → DAState × List (Nat × Impact)
  | s, [] => (s, [])
  | s, t :: ts =>
      let p := disruptionStep cfg s t
      let r := runDA cfg p.1 ts
      (r.1, p.2.map (fun i => (t, i)) ++ r.2)

/-- Number of effects of the given kind in a fired-effect trace. -/
def impactCount (i : Impact) (l : List (Nat × Impact)) : Nat :=
  l.countP (fun p => p.2 == i)

/-- The configuration of the C1 scenario: `start_tick = 5, duration = 3`. -/
def cfg53 : DisruptionConfig := { startStep := 5, duration := 3 }

/- ------------------------------------------------------------------
Simulation engine (`src/simulation_core/engine.py`)
------------------------------------------------------------------ -/

/-- A registered agent as the loop sees it (`engine.py` lines 153-158):
an identity (used in the error log) and, per tick, whether its `step`
returns normally (`ok t = true`) or raises (`ok t = false`). -/
structure AgentM where
  id : String
  ok : Nat → Bool

/-- Engine state (`engine.py` lines 34-41): `current_step`, `running`,
the `results` dict, the event manager, plus two observation logs —
`stepLog` records every `agent.step(tick)` invocation `(tick, agent_id)`
in invocation order and `errLog` every caught-and-logged agent exception
(lines 157-158). -/
structure EngineState where
  currentStep : Nat
  running : Bool
  em : EMState
  results : List (String × Nat)
  stepLog : List (Nat × String)
  errLog : List (Nat × String)

/-- A freshly constructed engine (`current_step = 0`, `running = False`,
empty `results`, event manager over the fresh simpy environment). -/
def initEngine : EngineState :=
  { currentStep := 0, running := false, em := initEM 0, results := [],
    stepLog := [], errLog := [] }

/-- `dict[key] = value` on the results dict. -/
def dictSet (l : List (String × Nat)) (k : String) (v : Nat) : List (String × Nat) :=
  if (l.lookup k).isSome then l.map (fun p => if p.1 == k then (k, v) else p)
  else l ++ [(k, v)]

/-- One iteration of the `for day in range(total_steps)` body
(`engine.py` lines 146-164): set `current_step = day`; run
`event_manager.process_events(day)`; invoke `agent.step(day)` for every
registered agent in registration order, catching and logging any exception
per agent (lines 154-158) so that later agents still step; collect step
metrics (a `pass`); finally `yield env.timeout(1)` advances the simpy
clock to `day + 1`. -/
def tickBody (agents : List AgentM) (st : EngineState) (day : Nat) : EngineState :=
  let pr := processEvents st.em day
  { st with
      currentStep := day
      em := { pr.1 with now := day + 1 }
      stepLog := st.stepLog ++ agents.map (fun a => (day, a.id))
      errLog := st.errLog ++ (agents.filter (fun a => !(a.ok day))).map (fun a => (day, a.id)) }

/-- `SimulationEngine._collect_final_results` (`engine.py` lines 202-209):
writes `results["total_simulation_days"] = current_step + 1` and
`results["total_agents"] = len(agents)`. -/
def collectFinalResults (agents : List AgentM) (st : EngineState) : EngineState :=
  { st with
      results :=
        dictSet (dictSet st.results "total_simulation_days" (st.currentStep + 1))
          "total_agents" agents.length }

/-- `SimulationEngine._simulation_loop` (`engine.py` lines 134-173):
`running = True`, the per-day loop over `range(total_steps)`, then
`running = False` and final-results collection.  `stop()` is invoked by
nothing in the modelled scenarios, so the `if not self.running: break` of
line 166 never fires and the loop covers every day. -/
def simulationLoop (agents : List AgentM) (totalSteps : Nat) (st : EngineState) : EngineState :=
  let stN := (List.range totalSteps).foldl (tickBody agents) { st with running := true }
  collectFinalResults agents { stN with running := false }

/-- `SimulationEngine.run_simulation` (`engine.py` lines 175-186): with no
registered agents it aborts before the loop (returning `{}`); otherwise the
simpy run drives `_simulation_loop` to completion and `self.results` is
returned. -/
def runSimulation (agents : List AgentM) (totalSteps : Nat) : EngineState :=
  if agents.isEmpty then initEngine else simulationLoop agents totalSteps initEngine

/-- The `(tick, agent_id)` step invocations the loop should produce for
the given days: every registered agent, in registration order, once per
day. -/
def expectedStepLog (agents : List AgentM) : List Nat → List (Nat × String)
  | [] => []
  | t :: ts => agents.map (fun a => (t, a.id)) ++ expectedStepLog agents ts

/-- The `(tick, agent_id)` error-log entries for the given days: the
agents whose `step` raised that day, in registration order. -/
def expectedErrLog (agents : List AgentM) : List Nat → List (Nat × String)
  | [] => []
  | t :: ts => (agents.filter (fun a => !(a.ok t))).map (fun a => (t, a.id)) ++
      expectedErrLog agents ts

/- ------------------------------------------------------------------
Concrete fixtures used by witnesses and counterexamples
------------------------------------------------------------------ -/

/-- An operational node with the given id. -/
def mkNode (i : String) : NodeObj :=
  { id := i, name := i, status := .OPERATIONAL, disruptionMeta := none }

/-- An operational edge with the given id, endpoints and `weight`
attribute. -/
def mkEdge (i u v : String) (w : Int) : EdgeObj :=
  { id := i, sourceId := u, targetId := v, attrs := [("weight", some w)],
    status := .OPERATIONAL, disruptionMeta := none }

/-- The three-node graph of the spec's path example (§8): nodes `A,B,C`,
edge `A→B` of weight 5 and edges `A→C`, `C→B` of weight 1, built through
the network's own insertion operations. -/
def netABC : SupplyChainNetwork :=
  (add_edge_object
    (add_edge_object
      (add_edge_object
        (add_node_object
          (add_node_object (add_node_object emptyNetwork (mkNode "A")).1 (mkNode "B")).1
          (mkNode "C")).1
        (mkEdge "E_AB" "A" "B" 5)).1
      (mkEdge "E_AC" "A" "C" 1)).1
    (mkEdge "E_CB" "C" "B" 1)).1

/-- An event manager holding two pending events, at steps 1 and 2. -/
def demoEM : EMState :=
  { now := 0,
    queue := [⟨1, .GENERAL, 1, true, false⟩, ⟨2, .GENERAL, 2, true, false⟩] }

/-- An agent whose `step` always returns normally. -/
def okAgent : AgentM := { id := "Agent_1", ok := fun _ => true }

/- ------------------------------------------------------------------
Helper lemmas
------------------------------------------------------------------ -/

/-- Counting by action id distributes over append. -/
theorem eidCount_append (eid : Nat) (l₁ l₂ : List Event) :
    eidCount eid (l₁ ++ l₂) = eidCount eid l₁ + eidCount eid l₂ :=
  List.countP_append ..

/-- Stable sorting does not change action-id counts. -/
theorem eidCount_pySort (eid : Nat) (l : List Event) :
    eidCount eid (pySortEvents l) = eidCount eid l :=
  (List.perm_insertionSort stepLE l).countP_eq _

/-- Filtering a list free of `eid` leaves it free of `eid`. -/
theorem eidCount_filter_zero (eid : Nat) (p : Event → Bool) (l : List Event)
    (h : eidCount eid l = 0) : eidCount eid (l.filter p) = 0 := by
  unfold eidCount at *
  rw [List.countP_filter, List.countP_eq_zero]
  rw [List.countP_eq_zero] at h
  intro a ha hcon
  exact h a ha (by revert hcon; simp +contextual)

/-- If no pending event has action id `eid` and no interaction schedules
one, then no run of interactions ever leaves such an event pending or
fires one. -/
theorem runOps_fresh (eid : Nat) (ops : List Op) :
    ∀ m : EMState, eidCount eid m.queue = 0 →
      (∀ op ∈ ops, opSchedulesEid op eid = false) →
      eidCount eid (runOps m ops).1.queue = 0 ∧ eidCount eid (runOps m ops).2 = 0 := by
  induction ops with
  | nil => intro m hq _; exact ⟨hq, rfl⟩
  | cons op ops ih =>
    intro m hq hops
    have hops2 : ∀ op2 ∈ ops, opSchedulesEid op2 eid = false :=
      fun op2 h2 => hops op2 (List.mem_cons_of_mem _ h2)
    cases op with
    | sched s ty e ok =>
      have he : (e == eid) = false := by
        simpa [opSchedulesEid] using hops _ (List.mem_cons_self _ _)
      have hq2 : eidCount eid (scheduleEvent m s ty e ok).1.queue = 0 := by
        unfold scheduleEvent
        by_cases hlt : s < m.now
        · simpa [hlt] using hq
        · simp only [hlt, if_false]
          rw [eidCount_pySort, eidCount_append, hq]
          simp [eidCount, List.countP_cons, he]
      simpa [runOps] using ih (scheduleEvent m s ty e ok).1 hq2 hops2
    | proc t =>
      have hq2 : eidCount eid (processEvents m t).1.queue = 0 :=
        eidCount_filter_zero eid _ _ hq
      have hf : eidCount eid (processEvents m t).2 = 0 :=
        eidCount_filter_zero eid _ _ hq
      have hrest := ih (processEvents m t).1 hq2 hops2
      refine ⟨by simpa [runOps] using hrest.1, ?_⟩
      simp only [runOps]
      rw [eidCount_append, hf, hrest.2]
    | advance =>
      have hq2 : eidCount eid (EMState.mk (m.now + 1) m.queue).queue = 0 := hq
      simpa [runOps] using ih _ hq2 hops2

/-- An unfired event strictly older than every processed tick is fired by
none of the `process_events` calls and survives in the queue. -/
theorem procRun_keeps (e : Event) (ts : List Nat) :
    ∀ m : EMState, e ∈ m.queue → (∀ u ∈ ts, e.step < u) →
      e ∈ (procRun m ts).1.queue ∧ e ∉ (procRun m ts).2 := by
  induction ts with
  | nil => intro m he _; exact ⟨he, List.not_mem_nil e⟩
  | cons u ts ih =>
    intro m he hu
    have hne : (e.step == u) = false := by
      simp [Nat.ne_of_lt (hu u (List.mem_cons_self _ _))]
    have he2 : e ∈ (processEvents m u).1.queue := by
      simp only [processEvents]
      exact List.mem_filter.mpr ⟨he, by simp [hne]⟩
    have hnotfired : e ∉ (processEvents m u).2 := by
      simp only [processEvents]
      intro hmem
      have := (List.mem_filter.mp hmem).2
      simp [hne] at this
    have hrest := ih (processEvents m u).1 he2
      (fun v hv => hu v (List.mem_cons_of_mem _ hv))
    refine ⟨by simpa [procRun] using hrest.1, ?_⟩
    simp only [procRun, List.mem_append]
    intro hcon
    rcases hcon with hcon | hcon
    · exact hnotfired hcon
    · exact hrest.2 hcon

/-- Inserting an event into a list keeps the sublist of events at any
given step equal to that of simply consing it on: the insertion point
skips exactly the elements of strictly smaller step. -/
theorem orderedInsert_filter_step (x : Event) (T : Nat) :
    ∀ l : List Event,
      (List.orderedInsert stepLE x l).filter (fun e => e.step == T)
        = (x :: l).filter (fun e => e.step == T) := by
  intro l
  induction l with
  | nil => rfl
  | cons b l ih =>
    by_cases hxb : stepLE x b
    · rw [List.orderedInsert_of_le stepLE _ hxb]
    · have hlt : b.step < x.step := Nat.lt_of_not_le hxb
      have hins : List.orderedInsert stepLE x (b :: l) =
          b :: List.orderedInsert stepLE x l := by
        simp [List.orderedInsert, hxb]
      rw [hins]
      by_cases hx : x.step = T
      · have hb : (b.step == T) = false := by
          simp [Nat.ne_of_lt (hx ▸ hlt)]
        simp only [List.filter_cons, hb, ih]
        simp [hx, hb]
      · have hxf : (x.step == T) = false := by simp [hx]
        simp only [List.filter_cons, ih]
        simp [hxf]

/-- Stability of the queue sort: the events at any given step appear in
the sorted queue exactly as they appeared, in order, before sorting. -/
theorem pySort_filter_step (T : Nat) :
    ∀ l : List Event,
      (pySortEvents l).filter (fun e => e.step == T) = l.filter (fun e => e.step == T) := by
  intro l
  induction l with
  | nil => rfl
  | cons x l ih =>
    show (List.orderedInsert stepLE x (List.insertionSort stepLE l)).filter _ = _
    rw [orderedInsert_filter_step]
    simp only [List.filter_cons]
    unfold pySortEvents at ih
    rw [ih]

/-- The sorted queue is sorted by step. -/
theorem pySort_sorted (l : List Event) : List.Sorted stepLE (pySortEvents l) :=
  List.sorted_insertionSort stepLE l

/-- `schedule_event` never changes the environment clock. -/
theorem runSched_now (rs : List Req) : ∀ m : EMState, (runSched m rs).now = m.now := by
  induction rs with
  | nil => intro m; rfl
  | cons r rs ih =>
    intro m
    rw [show runSched m (r :: rs) = runSched (scheduleEvent m r.step r.ty r.eid r.ok).1 rs
      from rfl, ih]
    unfold scheduleEvent
    by_cases h : r.step < m.now <;> simp [h]

/-- After a batch of `schedule_event` calls against an environment at
time 0 (where no request is in the past), the pending events at any step
`T` are exactly the requests for step `T`, in request order. -/
theorem runSched_filter (T : Nat) (rs : List Req) :
    ∀ m : EMState, m.now = 0 →
      (runSched m rs).queue.filter (fun e => e.step == T)
        = m.queue.filter (fun e => e.step == T)
          ++ (rs.filter (fun r => r.step == T)).map reqEvent := by
  induction rs with
  | nil => intro m _; simp [runSched]
  | cons r rs ih =>
    intro m hm
    have hnot : ¬ r.step < m.now := by rw [hm]; exact Nat.not_lt_zero _
    have hsched : (scheduleEvent m r.step r.ty r.eid r.ok).1 =
        { m with queue := pySortEvents (m.queue ++ [reqEvent r]) } := by
      unfold scheduleEvent
      simp [hnot, reqEvent]
    rw [show runSched m (r :: rs) = runSched (scheduleEvent m r.step r.ty r.eid r.ok).1 rs
      from rfl, hsched]
    rw [ih _ (by simpa using hm)]
    simp only [pySort_filter_step, List.filter_append, List.filter_cons]
    by_cases hr : (r.step == T) = true
    · have : ((reqEvent r).step == T) = true := hr
      simp [this, hr, List.append_assoc, reqEvent]
    · have hrf : (r.step == T) = false := by simpa using hr
      have : ((reqEvent r).step == T) = false := hrf
      simp [this, hrf]

/-- Every event a batch of `schedule_event` calls leaves in the queue is
unfired. -/
theorem runSched_untriggered (rs : List Req) :
    ∀ m : EMState, (∀ e ∈ m.queue, e.triggered = false) →
      ∀ e ∈ (runSched m rs).queue, e.triggered = false := by
  induction rs with
  | nil => intro m hm; exact hm
  | cons r rs ih =>
    intro m hm
    rw [show runSched m (r :: rs) = runSched (scheduleEvent m r.step r.ty r.eid r.ok).1 rs
      from rfl]
    apply ih
    intro e he
    unfold scheduleEvent at he
    by_cases h : r.step < m.now
    · simp [h] at he
      exact hm e he
    · simp only [h, if_false] at he
      have := (List.perm_insertionSort stepLE _).mem_iff.mp he
      rcases List.mem_append.mp this with h2 | h2
      · exact hm e h2
      · simp at h2
        rw [h2]

/-- A batch of `schedule_event` calls leaves the queue sorted by step. -/
theorem runSched_sorted (rs : List Req) :
    ∀ m : EMState, List.Sorted stepLE m.queue →
      List.Sorted stepLE (runSched m rs).queue := by
  induction rs with
  | nil => intro m hm; exact hm
  | cons r rs ih =>
    intro m hm
    rw [show runSched m (r :: rs) = runSched (scheduleEvent m r.step r.ty r.eid r.ok).1 rs
      from rfl]
    apply ih
    unfold scheduleEvent
    by_cases h : r.step < m.now
    · simpa [h] using hm
    · simp only [h, if_false]
      exact pySort_sorted _

/-- Mutating the object held under key `k` is observed by a lookup of
`k`. -/
theorem lookup_updateAssoc_self {α : Type} (k : String) (f : α → α) :
    ∀ l : List (String × α), (updateAssoc k f l).lookup k = (l.lookup k).map f := by
  intro l
  induction l with
  | nil => rfl
  | cons p t ih =>
    rcases p with ⟨k2, v⟩
    by_cases h : k2 = k
    · subst h
      simp [updateAssoc, List.lookup]
    · have h1 : (k2 == k) = false := by simp [h]
      have h2 : (k == k2) = false := by simp [Ne.symm h]
      simp [updateAssoc, List.lookup, h1, h2, ih]

/-- Whatever the agents' steps do, the loop body sequence appends exactly
one step-log entry per agent per day, in registration order, and one
error-log entry per raising agent per day. -/
theorem foldDays_logs (agents : List AgentM) (days : List Nat) :
    ∀ st : EngineState,
      (days.foldl (tickBody agents) st).stepLog = st.stepLog ++ expectedStepLog agents days
      ∧ (days.foldl (tickBody agents) st).errLog = st.errLog ++ expectedErrLog agents days := by
  induction days with
  | nil => intro st; simp [expectedStepLog, expectedErrLog]
  | cons d ds ih =>
    intro st
    have h := ih (tickBody agents st d)
    refine ⟨?_, ?_⟩
    · rw [List.foldl_cons, h.1]
      simp [tickBody, expectedStepLog, List.append_assoc]
    · rw [List.foldl_cons, h.2]
      simp [tickBody, expectedErrLog, List.append_assoc]

/-- Looking up a node after `apply_disruption_to_node` on it. -/
theorem lookup_apply_disruption_node (net : SupplyChainNetwork) (nid : String) (d : Details)
    (n0 : NodeObj) (h : net.nodesDict.lookup nid = some n0) :
    (apply_disruption_to_node net nid d).nodesDict.lookup nid
      = some (n0.update_status .DISRUPTED (some d)) := by
  unfold apply_disruption_to_node
  simp [h, lookup_updateAssoc_self]

/-- Looking up a node after `clear_disruption` on it. -/
theorem lookup_clear_disruption_node (net : SupplyChainNetwork) (nid : String)
    (n0 : NodeObj) (h : net.nodesDict.lookup nid = some n0) :
    (clear_disruption_node net nid).nodesDict.lookup nid
      = some (n0.update_status .OPERATIONAL none) := by
  unfold clear_disruption_node
  simp [h, lookup_updateAssoc_self]

/-- Looking up an edge after `apply_disruption_to_edge` on it. -/
theorem lookup_apply_disruption_edge (net : SupplyChainNetwork) (eid2 : String) (d : Details)
    (e0 : EdgeObj) (h : net.edgesDict.lookup eid2 = some e0) :
    (apply_disruption_to_edge net eid2 d).edgesDict.lookup eid2
      = some (e0.update_status .DISRUPTED (some d)) := by
  unfold apply_disruption_to_edge
  simp [h, lookup_updateAssoc_self]

/-- Looking up an edge after `clear_disruption` on it. -/
theorem lookup_clear_disruption_edge (net : SupplyChainNetwork) (eid2 : String)
    (e0 : EdgeObj) (h : net.edgesDict.lookup eid2 = some e0) :
    (clear_disruption_edge net eid2).edgesDict.lookup eid2
      = some (e0.update_status .OPERATIONAL none) := by
  unfold clear_disruption_edge
  simp [h, lookup_updateAssoc_self]

/- ------------------------------------------------------------------
Claim theorems
------------------------------------------------------------------ -/

/-- C1 (counterexample): the claim asserts that a `DisruptionAgent` with
`start_tick = 5, duration = 3`, stepped at 0,1,...,8, transitions to
INACTIVE at `step(8)` with exactly one `remove_impact` call.  On the code
this is false: after `step(8)` the agent is still ACTIVE and
`remove_impact` has fired zero times (activation at step 5 does not
decrement, so `duration_remaining` reaches 0 only inside `step(8)` and the
deactivation branch runs at `step(9)`). -/
theorem disruption_step8_claim_false :
    ¬((runDA cfg53 initDA (List.range 9)).1.active = false
      ∧ impactCount .removeImpact (runDA cfg53 initDA (List.range 9)).2 = 1) := by
  decide

/-- C1 (amended): with `start_tick = 5, duration = 3`, the agent stays
INACTIVE with no impact calls through `step(4)`; at `step(5)` it becomes
ACTIVE and fires `apply_impact` once; it remains ACTIVE through `step(6)`,
`step(7)` and `step(8)`; at `step(9)` it transitions to INACTIVE and fires
`remove_impact` once; over the run of steps 0..9 the totals are exactly
one `apply_impact` and one `remove_impact` call. -/
theorem disruption_lifecycle_traced :
    ((runDA cfg53 initDA (List.range 5)).1.active = false
      ∧ (runDA cfg53 initDA (List.range 5)).2 = [])
    ∧ ((runDA cfg53 initDA (List.range 6)).1.active = true
      ∧ (runDA cfg53 initDA (List.range 6)).2 = [(5, .applyImpact)])
    ∧ (runDA cfg53 initDA (List.range 7)).1.active = true
    ∧ (runDA cfg53 initDA (List.range 8)).1.active = true
    ∧ (runDA cfg53 initDA (List.range 9)).1.active = true
    ∧ ((runDA cfg53 initDA (List.range 10)).1.active = false
      ∧ (runDA cfg53 initDA (List.range 10)).2 = [(5, .applyImpact), (9, .removeImpact)]) := by
  decide

/-- C2 (code evaluation at the failing input): on the spec's own example
graph — nodes `A,B,C`, edge `A→B` of weight 5 and edges `A→C`, `C→B` of
weight 1 (all present, as the third conjunct shows) — the claim demands
`find_path(A, B, weight_selector = "weight") = [A, C, B]`, but the code
returns `None`: the weight callable it hands to networkx is invoked with
the edge-data dict where the lambda expects the edge key, so
`edges_dict.get(...)` raises `TypeError`, which the catch-all handler of
`find_path` converts to `None`. -/
theorem find_path_weighted_none_on_spec_example :
    find_path_weighted netABC "A" "B" "weight" = none
    ∧ find_path_weighted netABC "A" "B" "weight" ≠ some ["A", "C", "B"]
    ∧ netABC.graphEdges = [("A", "B", "E_AB"), ("A", "C", "E_AC"), ("C", "B", "E_CB")]
    ∧ (netABC.edgesDict.lookup "E_AB").map (fun e => e.attrs) = some [("weight", some 5)] := by
  refine ⟨rfl, by decide, rfl, rfl⟩

/-- C7 (counterexample): the claim asserts that a run with `total_ticks = 0`
and one registered agent reports a total-ticks-run metric of 0.  On the
code it reports 1: the loop body never runs, `current_step` keeps its
initial value 0, and `_collect_final_results` stores
`current_step + 1 = 1` under `"total_simulation_days"`.  No agent is ever
stepped, as the claim says. -/
theorem zero_tick_run_metric_claim_false :
    ¬((runSimulation [okAgent] 0).results.lookup "total_simulation_days" = some 0)
    ∧ (runSimulation [okAgent] 0).results.lookup "total_simulation_days" = some 1
    ∧ (runSimulation [okAgent] 0).stepLog = [] := by
  refine ⟨by decide, by decide, by decide⟩

/-- C7 (amended): a run configured with `total_ticks = 0` and at least one
registered agent produces a results mapping whose total-ticks-run metric
(`"total_simulation_days"`) equals 1 — the value `current_step + 1` with
`current_step` never advanced past 0 — and never invokes any agent's
`step`. -/
theorem zero_tick_run_metric_one_no_steps (agents : List AgentM) (h : agents ≠ []) :
    (runSimulation agents 0).results.lookup "total_simulation_days" = some 1
    ∧ (runSimulation agents 0).stepLog = [] := by
  have hne : agents.isEmpty = false := by
    cases agents with
    | nil => exact absurd rfl h
    | cons a t => rfl
  unfold runSimulation
  rw [hne]
  simp only [Bool.false_eq_true, if_false]
  unfold simulationLoop
  simp only [List.range_zero, List.foldl_nil]
  unfold collectFinalResults dictSet initEngine
  have hb1 : ("total_agents" == "total_simulation_days") = false := by decide
  have hb2 : ("total_simulation_days" == "total_simulation_days") = true := by decide
  simp [List.lookup, hb1, hb2]

/-- Witness for the amended C7 theorem at a concrete one-agent
registration. -/
theorem zero_tick_run_metric_one_no_steps_witness :
    ([okAgent] ≠ ([] : List AgentM))
    ∧ ((runSimulation [okAgent] 0).results.lookup "total_simulation_days" = some 1
      ∧ (runSimulation [okAgent] 0).stepLog = []) :=
  ⟨List.cons_ne_nil _ _, zero_tick_run_metric_one_no_steps [okAgent] (List.cons_ne_nil _ _)⟩

/-- C4: for every valid schedule request (`tick` not in the past, action
identified by a fresh `eid`), scheduling and then processing that tick
invokes the action exactly once; afterwards no event for that action is
pending, and no subsequent activity that does not re-schedule it — in
particular any further `process(tick)` call — ever fires it again. -/
theorem schedule_then_process_fires_once
    (m : EMState) (tick : Nat) (ty : EventType) (eid : Nat) (ok : Bool) (ops : List Op)
    (hnow : m.now ≤ tick) (hfresh : eidCount eid m.queue = 0)
    (hops : ∀ op ∈ ops, opSchedulesEid op eid = false) :
    eidCount eid (processEvents (scheduleEvent m tick ty eid ok).1 tick).2 = 1
    ∧ eidCount eid (processEvents (scheduleEvent m tick ty eid ok).1 tick).1.queue = 0
    ∧ eidCount eid (runOps (processEvents (scheduleEvent m tick ty eid ok).1 tick).1 ops).2 = 0 := by
  have hnot : ¬ tick < m.now := Nat.not_lt.mpr hnow
  have hq : (scheduleEvent m tick ty eid ok).1.queue
      = pySortEvents (m.queue ++ [⟨tick, ty, eid, ok, false⟩]) := by
    unfold scheduleEvent
    simp [hnot]
  have hall : ∀ e ∈ m.queue, ¬ ((e.eid == eid) = true) := List.countP_eq_zero.mp hfresh
  have hperm := List.perm_insertionSort stepLE (m.queue ++ [⟨tick, ty, eid, ok, false⟩])
  have h1 : eidCount eid (processEvents (scheduleEvent m tick ty eid ok).1 tick).2 = 1 := by
    show eidCount eid
      ((scheduleEvent m tick ty eid ok).1.queue.filter (fun e => e.step == tick && !e.triggered)) = 1
    unfold eidCount
    rw [List.countP_filter, hq]
    unfold pySortEvents
    rw [hperm.countP_eq, List.countP_append]
    have hzero : m.queue.countP (fun e => (e.eid == eid) && (e.step == tick && !e.triggered)) = 0 := by
      rw [List.countP_eq_zero]
      intro a ha hcon
      exact hall a ha (by revert hcon; simp +contextual)
    rw [hzero]
    simp [List.countP_cons]
  have h2 : eidCount eid (processEvents (scheduleEvent m tick ty eid ok).1 tick).1.queue = 0 := by
    show eidCount eid
      ((scheduleEvent m tick ty eid ok).1.queue.filter
        (fun e => !(e.step == tick && !e.triggered))) = 0
    unfold eidCount
    rw [List.countP_filter, hq]
    unfold pySortEvents
    rw [hperm.countP_eq, List.countP_append]
    have hzero : m.queue.countP
        (fun e => (e.eid == eid) && !(e.step == tick && !e.triggered)) = 0 := by
      rw [List.countP_eq_zero]
      intro a ha hcon
      exact hall a ha (by revert hcon; simp +contextual)
    rw [hzero]
    simp [List.countP_cons]
  exact ⟨h1, h2, (runOps_fresh eid ops _ h2 hops).2⟩

/-- Witness for C4: scheduling action 7 at tick 2 on a fresh manager,
processing tick 2 fires it once; re-processing tick 2 (with a clock
advance in between) never re-fires it. -/
theorem schedule_then_process_fires_once_witness :
    ((initEM 0).now ≤ 2 ∧ eidCount 7 (initEM 0).queue = 0
      ∧ (∀ op ∈ ([.proc 2, .advance, .proc 2] : List Op), opSchedulesEid op 7 = false))
    ∧ (eidCount 7 (processEvents (scheduleEvent (initEM 0) 2 .GENERAL 7 true).1 2).2 = 1
      ∧ eidCount 7 (processEvents (scheduleEvent (initEM 0) 2 .GENERAL 7 true).1 2).1.queue = 0
      ∧ eidCount 7 (runOps (processEvents (scheduleEvent (initEM 0) 2 .GENERAL 7 true).1 2).1
          ([.proc 2, .advance, .proc 2] : List Op)).2 = 0) :=
  ⟨⟨by decide, by decide, by decide⟩,
    schedule_then_process_fires_once (initEM 0) 2 .GENERAL 7 true
      [.proc 2, .advance, .proc 2] (by decide) (by decide) (by decide)⟩

/-- C6: a `schedule_event` call for a step strictly before the current
clock takes the warning-logged rejection branch, returning the manager
state completely unchanged, and the rejected action (fresh `eid`) fires in
none of the subsequent interactions — in particular in no subsequent
`process_events` call. -/
theorem past_schedule_rejected_never_fires
    (m : EMState) (T : Nat) (ty : EventType) (eid : Nat) (ok : Bool) (ops : List Op)
    (hpast : T < m.now) (hfresh : eidCount eid m.queue = 0)
    (hops : ∀ op ∈ ops, opSchedulesEid op eid = false) :
    scheduleEvent m T ty eid ok = (m, .rejectedPast)
    ∧ eidCount eid (runOps (scheduleEvent m T ty eid ok).1 ops).2 = 0 := by
  have h1 : scheduleEvent m T ty eid ok = (m, .rejectedPast) := by
    unfold scheduleEvent
    simp [hpast]
  exact ⟨h1, by simpa [h1] using (runOps_fresh eid ops m hfresh hops).2⟩

/-- Witness for C6: with the clock at 5, scheduling action 9 for step 1
is rejected without touching the queue and the action fires in no later
`process_events` call. -/
theorem past_schedule_rejected_never_fires_witness :
    (1 < (initEM 5).now ∧ eidCount 9 (initEM 5).queue = 0
      ∧ (∀ op ∈ ([.proc 1, .proc 5] : List Op), opSchedulesEid op 9 = false))
    ∧ (scheduleEvent (initEM 5) 1 .GENERAL 9 true = (initEM 5, .rejectedPast)
      ∧ eidCount 9 (runOps (scheduleEvent (initEM 5) 1 .GENERAL 9 true).1
          ([.proc 1, .proc 5] : List Op)).2 = 0) :=
  ⟨⟨by decide, by decide, by decide⟩,
    past_schedule_rejected_never_fires (initEM 5) 1 .GENERAL 9 true
      [.proc 1, .proc 5] (by decide) (by decide) (by decide)⟩

/-- C8: for every sequence of schedule requests issued against a fresh
manager and every tick `T`, the queue ends up sorted by tick, and
`process_events(T)` fires exactly the events scheduled for tick `T` in
the order in which they were scheduled (stable sorting breaks ties by
insertion order; the due events fire in queue order). -/
theorem events_fire_in_schedule_order (reqs : List Req) (T : Nat) :
    List.Sorted stepLE (runSched (initEM 0) reqs).queue
    ∧ (processEvents (runSched (initEM 0) reqs) T).2.map Event.eid
      = (reqs.filter (fun r => r.step == T)).map Req.eid := by
  refine ⟨runSched_sorted reqs (initEM 0) List.sorted_nil, ?_⟩
  have hfil := runSched_filter T reqs (initEM 0) rfl
  have huntrig := runSched_untriggered reqs (initEM 0)
    (by intro e he; exact absurd he (List.not_mem_nil e))
  show ((runSched (initEM 0) reqs).queue.filter
    (fun e => e.step == T && !e.triggered)).map Event.eid = _
  have hcongr : (runSched (initEM 0) reqs).queue.filter (fun e => e.step == T && !e.triggered)
      = (runSched (initEM 0) reqs).queue.filter (fun e => e.step == T) := by
    apply List.filter_congr
    intro e he
    rw [huntrig e he]
    simp
  rw [hcongr, hfil]
  simp [initEM, reqEvent, List.map_map, Function.comp]

/-- C10: `process_events(t)` removes from the queue exactly the unfired
events whose step equals `t` (regardless of whether their action raises —
removal is decided before triggering) and returns them as the fired
events, leaving every other event; consequently an unfired event whose
step is strictly below `t` is never fired and never removed by
`process_events(t)` or by later `process_events` calls at larger ticks —
it stays in the queue through all of them. -/
theorem process_removes_exactly_due_stale_linger
    (m : EMState) (t : Nat) (e : Event) (ts : List Nat)
    (he : e ∈ m.queue) (htr : e.triggered = false) (hlt : e.step < t)
    (hts : ∀ u ∈ ts, e.step < u) :
    (processEvents m t).1.queue = m.queue.filter (fun x => !(x.step == t && !x.triggered))
    ∧ (processEvents m t).2 = m.queue.filter (fun x => x.step == t && !x.triggered)
    ∧ e.triggered = false
    ∧ e ∈ (procRun m (t :: ts)).1.queue
    ∧ e ∉ (procRun m (t :: ts)).2 := by
  have hall : ∀ u ∈ t :: ts, e.step < u := by
    intro u hu
    rcases List.mem_cons.mp hu with h | h
    · exact h ▸ hlt
    · exact hts u h
  have hk := procRun_keeps e (t :: ts) m he hall
  exact ⟨rfl, rfl, htr, hk.1, hk.2⟩

/-- Witness for C10: in a queue holding events at steps 1 and 2, the
unfired step-1 event survives `process_events` at ticks 2 and 3 unfired. -/
theorem process_removes_exactly_due_stale_linger_witness :
    ((⟨1, .GENERAL, 1, true, false⟩ : Event) ∈ demoEM.queue
      ∧ (⟨1, .GENERAL, 1, true, false⟩ : Event).triggered = false
      ∧ (⟨1, .GENERAL, 1, true, false⟩ : Event).step < 2
      ∧ (∀ u ∈ ([3] : List Nat), (⟨1, .GENERAL, 1, true, false⟩ : Event).step < u))
    ∧ ((processEvents demoEM 2).1.queue
        = demoEM.queue.filter (fun x => !(x.step == 2 && !x.triggered))
      ∧ (processEvents demoEM 2).2
        = demoEM.queue.filter (fun x => x.step == 2 && !x.triggered)
      ∧ (⟨1, .GENERAL, 1, true, false⟩ : Event).triggered = false
      ∧ (⟨1, .GENERAL, 1, true, false⟩ : Event) ∈ (procRun demoEM (2 :: [3])).1.queue
      ∧ (⟨1, .GENERAL, 1, true, false⟩ : Event) ∉ (procRun demoEM (2 :: [3])).2) :=
  ⟨⟨by decide, rfl, by decide, by decide⟩,
    process_removes_exactly_due_stale_linger demoEM 2 ⟨1, .GENERAL, 1, true, false⟩ [3]
      (by decide) rfl (by decide) (by decide)⟩

/-- C3: for every node id and edge id present in the network, applying a
disruption sets the target's status to DISRUPTED and stores the given
details as its disruption metadata; a repeated application with different
details overwrites the metadata; and clearing the disruption reverts the
status to OPERATIONAL and drops the metadata.  (`update_status` and
`clear_disruption` are modelled from the spec — see their definitions.) -/
theorem apply_and_clear_disruption_spec
    (net : SupplyChainNetwork) (nid eid2 : String) (d d2 : Details)
    (hn : (net.nodesDict.lookup nid).isSome = true)
    (he : (net.edgesDict.lookup eid2).isSome = true) :
    nodeStatus (apply_disruption_to_node net nid d) nid = some .DISRUPTED
    ∧ nodeMeta (apply_disruption_to_node net nid d) nid = some (some d)
    ∧ nodeMeta (apply_disruption_to_node (apply_disruption_to_node net nid d) nid d2) nid
        = some (some d2)
    ∧ nodeStatus (clear_disruption_node (apply_disruption_to_node net nid d) nid) nid
        = some .OPERATIONAL
    ∧ nodeMeta (clear_disruption_node (apply_disruption_to_node net nid d) nid) nid = some none
    ∧ edgeStatus (apply_disruption_to_edge net eid2 d) eid2 = some .DISRUPTED
    ∧ edgeMeta (apply_disruption_to_edge net eid2 d) eid2 = some (some d)
    ∧ edgeMeta (apply_disruption_to_edge (apply_disruption_to_edge net eid2 d) eid2 d2) eid2
        = some (some d2)
    ∧ edgeStatus (clear_disruption_edge (apply_disruption_to_edge net eid2 d) eid2) eid2
        = some .OPERATIONAL
    ∧ edgeMeta (clear_disruption_edge (apply_disruption_to_edge net eid2 d) eid2) eid2
        = some none := by
  obtain ⟨n0, hn0⟩ := Option.isSome_iff_exists.mp hn
  obtain ⟨e0, he0⟩ := Option.isSome_iff_exists.mp he
  have h1 := lookup_apply_disruption_node net nid d n0 hn0
  have h2 := lookup_apply_disruption_node (apply_disruption_to_node net nid d) nid d2 _ h1
  have h3 := lookup_clear_disruption_node (apply_disruption_to_node net nid d) nid _ h1
  have g1 := lookup_apply_disruption_edge net eid2 d e0 he0
  have g2 := lookup_apply_disruption_edge (apply_disruption_to_edge net eid2 d) eid2 d2 _ g1
  have g3 := lookup_clear_disruption_edge (apply_disruption_to_edge net eid2 d) eid2 _ g1
  refine ⟨?_, ?_, ?_, ?_, ?_, ?_, ?_, ?_, ?_, ?_⟩
  · simp [nodeStatus, h1, NodeObj.update_status]
  · simp [nodeMeta, h1, NodeObj.update_status]
  · simp [nodeMeta, h2, NodeObj.update_status]
  · simp [nodeStatus, h3, NodeObj.update_status]
  · simp [nodeMeta, h3, NodeObj.update_status]
  · simp [edgeStatus, g1, EdgeObj.update_status]
  · simp [edgeMeta, g1, EdgeObj.update_status]
  · simp [edgeMeta, g2, EdgeObj.update_status]
  · simp [edgeStatus, g3, EdgeObj.update_status]
  · simp [edgeMeta, g3, EdgeObj.update_status]

/-- Witness for C3 on the example network: disrupting node `A` and edge
`E_AB`, re-disrupting with different details, then clearing. -/
theorem apply_and_clear_disruption_spec_witness :
    ((netABC.nodesDict.lookup "A").isSome = true
      ∧ (netABC.edgesDict.lookup "E_AB").isSome = true)
    ∧ (nodeStatus (apply_disruption_to_node netABC "A" [("cause", "cyclone")]) "A"
          = some .DISRUPTED
      ∧ nodeMeta (apply_disruption_to_node netABC "A" [("cause", "cyclone")]) "A"
          = some (some [("cause", "cyclone")])
      ∧ nodeMeta (apply_disruption_to_node
            (apply_disruption_to_node netABC "A" [("cause", "cyclone")]) "A"
            [("cause", "strike")]) "A"
          = some (some [("cause", "strike")])
      ∧ nodeStatus (clear_disruption_node
            (apply_disruption_to_node netABC "A" [("cause", "cyclone")]) "A") "A"
          = some .OPERATIONAL
      ∧ nodeMeta (clear_disruption_node
            (apply_disruption_to_node netABC "A" [("cause", "cyclone")]) "A") "A" = some none
      ∧ edgeStatus (apply_disruption_to_edge netABC "E_AB" [("cause", "cyclone")]) "E_AB"
          = some .DISRUPTED
      ∧ edgeMeta (apply_disruption_to_edge netABC "E_AB" [("cause", "cyclone")]) "E_AB"
          = some (some [("cause", "cyclone")])
      ∧ edgeMeta (apply_disruption_to_edge
            (apply_disruption_to_edge netABC "E_AB" [("cause", "cyclone")]) "E_AB"
            [("cause", "strike")]) "E_AB"
          = some (some [("cause", "strike")])
      ∧ edgeStatus (clear_disruption_edge
            (apply_disruption_to_edge netABC "E_AB" [("cause", "cyclone")]) "E_AB") "E_AB"
          = some .OPERATIONAL
      ∧ edgeMeta (clear_disruption_edge
            (apply_disruption_to_edge netABC "E_AB" [("cause", "cyclone")]) "E_AB") "E_AB"
          = some none) :=
  ⟨⟨by decide, by decide⟩,
    apply_and_clear_disruption_spec netABC "A" "E_AB"
      [("cause", "cyclone")] [("cause", "strike")] (by decide) (by decide)⟩

/-- C5: a duplicate-id `add_node_object` call, a duplicate-id
`add_edge_object` call, and an `add_edge_object` call naming an endpoint
absent from the node map are each rejected with the corresponding outcome
(DuplicateId, DuplicateId, UnknownEndpoint) signalled at the call, and the
returned network — node map, edge map and graph alike — is exactly the
input network: rejected mutations never partially apply. -/
theorem rejected_mutations_leave_network_unchanged
    (net : SupplyChainNetwork) (n : NodeObj) (e : EdgeObj) :
    ((net.nodesDict.lookup n.id).isSome = true →
      add_node_object net n = (net, .duplicateId))
    ∧ ((net.edgesDict.lookup e.id).isSome = true →
      add_edge_object net e = (net, .duplicateId))
    ∧ ((net.edgesDict.lookup e.id).isSome = false →
      ((net.nodesDict.lookup e.sourceId).isNone = true
        ∨ (net.nodesDict.lookup e.targetId).isNone = true) →
      add_edge_object net e = (net, .unknownEndpoint)) := by
  refine ⟨?_, ?_, ?_⟩
  · intro h
    unfold add_node_object
    simp [h]
  · intro h
    unfold add_edge_object
    simp [h]
  · intro h1 h2
    unfold add_edge_object
    have hor : ((net.nodesDict.lookup e.sourceId).isNone
        || (net.nodesDict.lookup e.targetId).isNone) = true := by
      rcases h2 with h | h <;> simp [h]
    simp [h1, hor]

/-- Witness for C5 on the example network: re-adding node `A`, re-adding
edge id `E_AB`, and adding an edge from the absent node `X`. -/
theorem rejected_mutations_leave_network_unchanged_witness :
    ((netABC.nodesDict.lookup "A").isSome = true
      ∧ add_node_object netABC (mkNode "A") = (netABC, .duplicateId))
    ∧ ((netABC.edgesDict.lookup "E_AB").isSome = true
      ∧ add_edge_object netABC (mkEdge "E_AB" "A" "B" 7) = (netABC, .duplicateId))
    ∧ ((netABC.edgesDict.lookup "E_XB").isSome = false
      ∧ (netABC.nodesDict.lookup "X").isNone = true
      ∧ add_edge_object netABC (mkEdge "E_XB" "X" "B" 1) = (netABC, .unknownEndpoint)) :=
  ⟨⟨by decide,
      (rejected_mutations_leave_network_unchanged netABC (mkNode "A")
        (mkEdge "E_AB" "A" "B" 7)).1 (by decide)⟩,
    ⟨by decide,
      (rejected_mutations_leave_network_unchanged netABC (mkNode "A")
        (mkEdge "E_AB" "A" "B" 7)).2.1 (by decide)⟩,
    ⟨by decide, by decide,
      (rejected_mutations_leave_network_unchanged netABC (mkNode "A")
        (mkEdge "E_XB" "X" "B" 1)).2.2 (by decide) (Or.inl (by decide))⟩⟩

/-- C9: over every run and tick, the loop invokes `agent.step(tick)` for
every registered agent in registration order (the step log per tick is the
registration list); an agent whose `step` raises is caught and logged with
its identity in the error log, and neither the remaining agents of that
tick nor the remaining ticks are skipped — the step log is the same
whatever the agents' `ok` outcomes. -/
theorem agents_step_in_order_exceptions_isolated (agents : List AgentM) (totalSteps : Nat) :
    (simulationLoop agents totalSteps initEngine).stepLog
      = expectedStepLog agents (List.range totalSteps)
    ∧ (simulationLoop agents totalSteps initEngine).errLog
      = expectedErrLog agents (List.range totalSteps) := by
  have h := foldDays_logs agents (List.range totalSteps)
    { initEngine with running := true }
  unfold simulationLoop collectFinalResults
  constructor
  · simpa [initEngine] using h.1
  · simpa [initEngine] using h.2

end SimKernel
